import Mathlib

/-!
Verification development for the podcast player application.

The definitions below are a shallow embedding of the TypeScript sources:
* the player store (`src/unnamed/part_000`, a zustand store): episodes,
  queue, play history, saved positions, and the store actions;
* the download store (`src/stores/downloadStore.ts`);
* the audio-player hook (`src/hooks/useAudioPlayer.ts`) and the downloads
  hook (`src/hooks/useDownloads.ts`).

Conventions of the embedding:
* JavaScript string-keyed objects (`Record<string, T>`) are modelled
  extensionally as functions `String → Option T`; no verified property
  depends on key-enumeration order.
* `Date` values (wall-clock timestamps) are modelled as `Nat` and threaded
  through operations as an explicit `now` argument.
* Store mutations (`set`, via zustand) become explicit state-passing:
  every action takes and returns the whole store state.
* Calls into the native audio engine (`audioService.play`, `seekTo`) are
  modelled as an `AudioCommand` value returned alongside the new state.
-/

namespace MominLectures

/-- Extensional model of a JavaScript record update `{...m, [k]: v}`. -/
def recordSet {α : Type} (m : String → Option α) (k : String) (v : α) :
    String → Option α :=
  fun k' => if k' = k then some v else m k'

/-- Extensional model of a JavaScript record key removal
`const { [k]: _, ...rest } = m`. -/
def recordDelete {α : Type} (m : String → Option α) (k : String) :
    String → Option α :=
  fun k' => if k' = k then none else m k'

/-- Episode, from `src/types` (`part_002` of the types file): fields that
participate in the verified behaviour.  Presentation-only fields
(description, image, season/episode numbers, publication date) are omitted;
no operation reads them. -/
structure Episode where
  id : String
  showId : String
  title : String
  audioUrl : String
  duration : Nat
  fileSize : Nat
deriving DecidableEq

/-- QueueItem, from `src/types`: an episode plus the `addedAt` timestamp. -/
structure QueueItem where
  episode : Episode
  addedAt : Nat
deriving DecidableEq

/-- PlaybackPosition, from `src/types`. -/
structure PlaybackPosition where
  episodeId : String
  position : Nat
  updatedAt : Nat
deriving DecidableEq

/-- State of the player store (`src/unnamed/part_000`). -/
structure PlayerState where
  currentEpisode : Option Episode
  isPlaying : Bool
  isLoading : Bool
  isBuffering : Bool
  isPlayRequested : Bool
  position : Nat
  duration : Nat
  playbackSpeed : Rat
  queue : List QueueItem
  playHistory : List Episode
  savedPositions : String → Option PlaybackPosition
  sleepTimerEndTime : Option Nat

/-- Initial state of the player store. -/
def initialPlayerState : PlayerState where
  currentEpisode := none
  isPlaying := false
  isLoading := false
  isBuffering := false
  isPlayRequested := false
  position := 0
  duration := 0
  playbackSpeed := 1
  queue := []
  playHistory := []
  savedPositions := fun _ => none
  sleepTimerEndTime := none

/-- `savePosition` store action: no-op below the 5000 ms threshold,
otherwise upserts an entry keyed by the episode id. -/
def savePosition (episodeId : String) (position : Nat) (now : Nat)
    (s : PlayerState) : PlayerState :=
  if position < 5000 then s
  else
    { s with
      savedPositions :=
        recordSet s.savedPositions episodeId
          { episodeId := episodeId, position := position, updatedAt := now } }

/-- `getSavedPosition` store action: `saved?.position || 0`.  (For a stored
entry with position `0` the JavaScript `||` also yields `0`, so the
`getD`-style match below agrees with the source on every input.) -/
def getSavedPosition (s : PlayerState) (episodeId : String) : Nat :=
  match s.savedPositions episodeId with
  | some saved => saved.position
  | none => 0

/-- `setCurrentEpisode` store action: saves the outgoing episode's position
(when > 0), pushes the outgoing episode onto the history front
(de-duplicated by id, capped at 20), then installs the new current episode
and resets position/duration. -/
def setCurrentEpisode (episode : Option Episode) (now : Nat)
    (s : PlayerState) : PlayerState :=
  let s1 :=
    match s.currentEpisode with
    | some cur => if s.position > 0 then savePosition cur.id s.position now s else s
    | none => s
  let newHistory :=
    match s.currentEpisode with
    | some cur => (cur :: s.playHistory.filter (fun e => e.id != cur.id)).take 20
    | none => s.playHistory
  { s1 with
    currentEpisode := episode
    position := 0
    duration := 0
    playHistory := newHistory }

/-- `addToQueue` store action: refuses duplicates of an id already queued
and refuses the current episode's id; otherwise appends at the back. -/
def addToQueue (episode : Episode) (now : Nat) (s : PlayerState) : PlayerState :=
  if s.queue.any (fun item => item.episode.id == episode.id) then s
  else if s.currentEpisode.map Episode.id = some episode.id then s
  else { s with queue := s.queue ++ [{ episode := episode, addedAt := now }] }

/-- `setQueue` store action: replaces the queue with the given episodes,
filtering out the one whose id equals the current episode's id. -/
def setQueue (episodes : List Episode) (now : Nat) (s : PlayerState) : PlayerState :=
  { s with
    queue :=
      (episodes.filter
          (fun ep => !(s.currentEpisode.map Episode.id == some ep.id))).map
        (fun episode => { episode := episode, addedAt := now }) }

/-- `playNext` store action: no-op returning `null` on an empty queue;
otherwise saves the outgoing position (when > 0), pushes the outgoing
current episode onto the history front (de-duplicated, capped at 20), pops
the queue head as the new current episode and resets position/duration. -/
def playNext (now : Nat) (s : PlayerState) : Option Episode × PlayerState :=
  match s.queue with
  | [] => (none, s)
  | nextItem :: restQueue =>
    let s1 :=
      match s.currentEpisode with
      | some cur => if s.position > 0 then savePosition cur.id s.position now s else s
      | none => s
    let newHistory :=
      match s.currentEpisode with
      | some cur => (cur :: s.playHistory.filter (fun e => e.id != cur.id)).take 20
      | none => s.playHistory
    (some nextItem.episode,
      { s1 with
        currentEpisode := some nextItem.episode
        queue := restQueue
        playHistory := newHistory
        position := 0
        duration := 0 })

/-- `playPrevious` store action: no-op returning `null` on an empty
history; otherwise saves the outgoing position (when > 0), pops the history
head as the new current episode, pushes the outgoing current episode onto
the queue front and resets position/duration. -/
def playPrevious (now : Nat) (s : PlayerState) : Option Episode × PlayerState :=
  match s.playHistory with
  | [] => (none, s)
  | prevEpisode :: restHistory =>
    let s1 :=
      match s.currentEpisode with
      | some cur => if s.position > 0 then savePosition cur.id s.position now s else s
      | none => s
    let newQueue :=
      match s.currentEpisode with
      | some cur => { episode := cur, addedAt := now } :: s.queue
      | none => s.queue
    (some prevEpisode,
      { s1 with
        currentEpisode := some prevEpisode
        playHistory := restHistory
        queue := newQueue
        position := 0
        duration := 0 })

/-- `reset` store action: clears the playback-session fields only. -/
def reset (s : PlayerState) : PlayerState :=
  { s with
    currentEpisode := none
    isPlaying := false
    isLoading := false
    isBuffering := false
    isPlayRequested := false
    position := 0
    duration := 0 }

/-- Test fixture: a concrete episode of show `"show1"`. -/
def ep1 : Episode :=
  { id := "e1", showId := "show1", title := "Lecture 1"
    audioUrl := "https://cdn.example.com/e1.mp3", duration := 600, fileSize := 1000 }

/-- Test fixture: a second episode of show `"show1"`. -/
def ep2 : Episode :=
  { id := "e2", showId := "show1", title := "Lecture 2"
    audioUrl := "https://cdn.example.com/e2.mp3", duration := 700, fileSize := 2000 }

/-- Test fixture: a third episode of show `"show1"`. -/
def ep3 : Episode :=
  { id := "e3", showId := "show1", title := "Lecture 3"
    audioUrl := "https://cdn.example.com/e3.mp3", duration := 800, fileSize := 3000 }

/-- Claim C3: `savePosition` is a no-op for positions below 5000 ms, an
upsert at or above 5000 ms (so a subsequent `getSavedPosition` of the same
id returns the saved position), and `getSavedPosition` returns 0 for any id
without a saved entry. -/
theorem savePosition_getSavedPosition_spec
    (s : PlayerState) (episodeId : String) (P now : Nat) :
    (P < 5000 → savePosition episodeId P now s = s) ∧
    (5000 ≤ P →
      getSavedPosition (savePosition episodeId P now s) episodeId = P) ∧
    (s.savedPositions episodeId = none → getSavedPosition s episodeId = 0) := by
  refine ⟨fun h => ?_, fun h => ?_, fun h => ?_⟩
  · simp [savePosition, h]
  · simp [savePosition, getSavedPosition, recordSet, Nat.not_lt.mpr h]
  · simp [getSavedPosition, h]

/-- Witness for C3 at episode id `"e1"`, positions 3000 and 6000, on the
initial store state. -/
theorem savePosition_getSavedPosition_spec_witness :
    (3000 < 5000 ∧ savePosition "e1" 3000 7 initialPlayerState = initialPlayerState) ∧
    (5000 ≤ 6000 ∧
      getSavedPosition (savePosition "e1" 6000 7 initialPlayerState) "e1" = 6000) ∧
    (initialPlayerState.savedPositions "e1" = none ∧
      getSavedPosition initialPlayerState "e1" = 0) :=
  ⟨⟨by decide,
      (savePosition_getSavedPosition_spec initialPlayerState "e1" 3000 7).1 (by decide)⟩,
    ⟨by decide,
      (savePosition_getSavedPosition_spec initialPlayerState "e1" 6000 7).2.1 (by decide)⟩,
    ⟨rfl,
      (savePosition_getSavedPosition_spec initialPlayerState "e1" 6000 7).2.2 rfl⟩⟩

/-- Test fixture for the end-to-end previous-navigation scenario of the
spec: current = ep2, queue = [ep3], history = [ep1]. -/
def statePrevExample : PlayerState :=
  { initialPlayerState with
    currentEpisode := some ep2
    queue := [{ episode := ep3, addedAt := 0 }]
    playHistory := [ep1] }

/-- Claim C5: `playPrevious` returns `null` and changes nothing on an empty
history; otherwise it saves the outgoing position via `savePosition` (when
position > 0), pops the history head as the new current episode, pushes the
outgoing current episode onto the queue front, resets position and
duration, and returns the new current episode.  The final conjuncts check
the spec's concrete scenario: from current = E2, queue = [E3],
history = [E1], the call yields current = E1, queue = [E2, E3],
history = []. -/
theorem playPrevious_spec (now : Nat) (s : PlayerState) :
    (s.playHistory = [] → playPrevious now s = (none, s)) ∧
    (∀ prevEpisode restHistory, s.playHistory = prevEpisode :: restHistory →
      (playPrevious now s).1 = some prevEpisode ∧
      (playPrevious now s).2.currentEpisode = some prevEpisode ∧
      (playPrevious now s).2.playHistory = restHistory ∧
      ((playPrevious now s).2.queue.map QueueItem.episode =
        match s.currentEpisode with
        | some cur => cur :: s.queue.map QueueItem.episode
        | none => s.queue.map QueueItem.episode) ∧
      (playPrevious now s).2.position = 0 ∧
      (playPrevious now s).2.duration = 0 ∧
      ((playPrevious now s).2.savedPositions =
        match s.currentEpisode with
        | some cur =>
          if 0 < s.position then (savePosition cur.id s.position now s).savedPositions
          else s.savedPositions
        | none => s.savedPositions)) ∧
    ((playPrevious 9 statePrevExample).1 = some ep1 ∧
      (playPrevious 9 statePrevExample).2.currentEpisode = some ep1 ∧
      (playPrevious 9 statePrevExample).2.queue.map QueueItem.episode = [ep2, ep3] ∧
      (playPrevious 9 statePrevExample).2.playHistory = []) := by
  refine ⟨fun h => ?_, fun prevEpisode restHistory h => ?_, ?_⟩
  · simp [playPrevious, h]
  · cases hc : s.currentEpisode with
    | none => simp [playPrevious, h, hc]
    | some cur =>
      by_cases hp : 0 < s.position <;>
        simp [playPrevious, h, hc, hp]
  · refine ⟨rfl, rfl, rfl, rfl⟩

/-- Witness for C5: the cons-history clause of `playPrevious_spec` applied
to the concrete scenario state. -/
theorem playPrevious_spec_witness :
    statePrevExample.playHistory = ep1 :: [] ∧
    (playPrevious 9 statePrevExample).1 = some ep1 ∧
    (playPrevious 9 statePrevExample).2.currentEpisode = some ep1 :=
  ⟨rfl,
    ((playPrevious_spec 9 statePrevExample).2.1 ep1 [] rfl).1,
    ((playPrevious_spec 9 statePrevExample).2.1 ep1 [] rfl).2.1⟩

/-- Claim C6: `playNext` with an empty queue returns `null` and leaves the
whole store state unchanged; with a non-empty queue it saves the outgoing
position via `savePosition` (when position > 0), pushes the outgoing
current episode onto the history front, pops the queue head as the new
current episode, resets position and duration, and returns the new current
episode. -/
theorem playNext_spec (now : Nat) (s : PlayerState) :
    (s.queue = [] → playNext now s = (none, s)) ∧
    (∀ nextItem restQueue, s.queue = nextItem :: restQueue →
      (playNext now s).1 = some nextItem.episode ∧
      (playNext now s).2.currentEpisode = some nextItem.episode ∧
      (playNext now s).2.queue = restQueue ∧
      (∀ cur, s.currentEpisode = some cur →
        (playNext now s).2.playHistory.head? = some cur) ∧
      (s.currentEpisode = none → (playNext now s).2.playHistory = s.playHistory) ∧
      (playNext now s).2.position = 0 ∧
      (playNext now s).2.duration = 0 ∧
      ((playNext now s).2.savedPositions =
        match s.currentEpisode with
        | some cur =>
          if 0 < s.position then (savePosition cur.id s.position now s).savedPositions
          else s.savedPositions
        | none => s.savedPositions)) := by
  refine ⟨fun h => ?_, fun nextItem restQueue h => ?_⟩
  · simp [playNext, h]
  · cases hc : s.currentEpisode with
    | none => simp [playNext, h, hc]
    | some cur =>
      by_cases hp : 0 < s.position <;>
        simp [playNext, h, hc, hp]

/-- Witness for C6: both clauses of `playNext_spec` at concrete states —
the empty-queue no-op on the initial state, and the cons-queue clause on
the scenario state (current = E2, queue = [E3]). -/
theorem playNext_spec_witness :
    (initialPlayerState.queue = [] ∧
      playNext 3 initialPlayerState = (none, initialPlayerState)) ∧
    (statePrevExample.queue = { episode := ep3, addedAt := 0 } :: [] ∧
      (playNext 3 statePrevExample).1 = some ep3 ∧
      (playNext 3 statePrevExample).2.playHistory.head? = some ep2) :=
  ⟨⟨rfl, (playNext_spec 3 initialPlayerState).1 rfl⟩,
    ⟨rfl,
      ((playNext_spec 3 statePrevExample).2 { episode := ep3, addedAt := 0 } [] rfl).1,
      ((playNext_spec 3 statePrevExample).2 { episode := ep3, addedAt := 0 } [] rfl).2.2.2.1
        ep2 rfl⟩⟩

/-- An operation on the player store, for stating reachability of states
under sequences of store actions. -/
inductive PlayerOp where
  | setCurrentEpisode (episode : Option Episode) (now : Nat)
  | addToQueue (episode : Episode) (now : Nat)
  | setQueue (episodes : List Episode) (now : Nat)
  | playNext (now : Nat)
  | playPrevious (now : Nat)
deriving DecidableEq

/-- Apply one store action to a state (return values of `playNext` and
`playPrevious` are discarded; only the state matters for invariants). -/
def applyOp (s : PlayerState) : PlayerOp → PlayerState
  | PlayerOp.setCurrentEpisode episode now => setCurrentEpisode episode now s
  | PlayerOp.addToQueue episode now => addToQueue episode now s
  | PlayerOp.setQueue episodes now => setQueue episodes now s
  | PlayerOp.playNext now => (playNext now s).2
  | PlayerOp.playPrevious now => (playPrevious now s).2

/-- Run a sequence of store actions from the initial (empty) state. -/
def runOps (ops : List PlayerOp) : PlayerState :=
  ops.foldl applyOp initialPlayerState

/-- The current episode's id does not occur in the queue. -/
def queueDisjoint (s : PlayerState) : Bool :=
  match s.currentEpisode with
  | some cur => s.queue.all fun item => item.episode.id != cur.id
  | none => true

/-- Queue invariant claimed by the spec: no duplicate episode ids in the
queue, and the current episode's id never in the queue. -/
def QueueInvariant (s : PlayerState) : Prop :=
  (s.queue.map fun item => item.episode.id).Nodup ∧ queueDisjoint s = true

/-- `addToQueue` preserves the queue invariant. -/
theorem addToQueue_queueInvariant (episode : Episode) (now : Nat)
    (s : PlayerState) (h : QueueInvariant s) :
    QueueInvariant (addToQueue episode now s) := by
  obtain ⟨hnodup, hdisj⟩ := h
  by_cases h1 : (s.queue.any fun item => item.episode.id == episode.id) = true
  · simpa [addToQueue, h1] using And.intro hnodup hdisj
  · by_cases h2 : s.currentEpisode.map Episode.id = some episode.id
    · simpa [addToQueue, h1, h2] using And.intro hnodup hdisj
    · have hmem : ∀ item ∈ s.queue, ¬ item.episode.id = episode.id := by
        simpa using h1
      have hq : addToQueue episode now s =
          { s with queue := s.queue ++ [{ episode := episode, addedAt := now }] } := by
        simp [addToQueue, h1, h2]
      rw [hq]
      constructor
      · simp only [List.map_append, List.map_cons, List.map_nil]
        rw [List.nodup_append]
        refine ⟨hnodup, List.nodup_singleton _, ?_⟩
        intro a ha hb
        simp only [List.mem_singleton] at hb
        subst hb
        simp only [List.mem_map] at ha
        obtain ⟨item, hitem, hid⟩ := ha
        exact hmem item hitem hid
      · cases hc : s.currentEpisode with
        | none => simp [queueDisjoint, hc]
        | some cur =>
          simp only [queueDisjoint, hc] at hdisj ⊢
          simp only [List.all_eq_true] at hdisj ⊢
          intro item hitem
          rcases List.mem_append.mp hitem with hl | hr
          · exact hdisj item hl
          · simp only [List.mem_singleton] at hr
            subst hr
            simp only [bne_iff_ne, ne_eq]
            intro hid
            apply h2
            simp [hc, hid]

/-- `setQueue` establishes the queue invariant whenever the input list has
no duplicate episode ids. -/
theorem setQueue_queueInvariant (episodes : List Episode) (now : Nat)
    (s : PlayerState) (h : (episodes.map Episode.id).Nodup) :
    QueueInvariant (setQueue episodes now s) := by
  constructor
  · have heq : ((setQueue episodes now s).queue.map fun item => item.episode.id)
        = ((episodes.filter
            fun ep => !(s.currentEpisode.map Episode.id == some ep.id)).map
          Episode.id) := by
      simp [setQueue, List.map_map]
    rw [heq]
    exact h.sublist ((List.filter_sublist episodes).map Episode.id)
  · cases hc : s.currentEpisode with
    | none => simp [setQueue, queueDisjoint, hc]
    | some cur =>
      simp only [setQueue, queueDisjoint, hc, List.all_eq_true]
      intro item hitem
      simp only [List.mem_map, List.mem_filter] at hitem
      obtain ⟨ep, ⟨_, hpred⟩, hmk⟩ := hitem
      subst hmk
      simp only [hc, Option.map_some', Bool.not_eq_true'] at hpred
      simp only [bne_iff_ne, ne_eq]
      intro hid
      simp [hid] at hpred

/-- `playNext` preserves the queue invariant. -/
theorem playNext_queueInvariant (now : Nat) (s : PlayerState)
    (h : QueueInvariant s) : QueueInvariant ((playNext now s).2) := by
  obtain ⟨hnodup, hdisj⟩ := h
  cases hq : s.queue with
  | nil =>
    have hid : playNext now s = (none, s) := by simp [playNext, hq]
    rw [hid]
    exact ⟨hnodup, hdisj⟩
  | cons nextItem restQueue =>
    rw [hq, List.map_cons, List.nodup_cons] at hnodup
    obtain ⟨hhead, htail⟩ := hnodup
    constructor
    · simpa [playNext, hq] using htail
    · simp only [playNext, hq, queueDisjoint, List.all_eq_true]
      intro item hitem
      simp only [bne_iff_ne, ne_eq]
      intro hid
      exact hhead (List.mem_map.mpr ⟨item, hitem, hid⟩)

/-- Operations under which the queue invariant actually is preserved:
`addToQueue`, `setQueue` with duplicate-free input ids, and `playNext`.
(`setCurrentEpisode` and `playPrevious` are excluded: they can introduce
the current episode's id or a duplicate into the queue.) -/
def safeOp : PlayerOp → Bool
  | PlayerOp.setCurrentEpisode _ _ => false
  | PlayerOp.addToQueue _ _ => true
  | PlayerOp.setQueue episodes _ => decide (episodes.map Episode.id).Nodup
  | PlayerOp.playNext _ => true
  | PlayerOp.playPrevious _ => false

/-- The queue invariant holds after any fold of safe operations from an
invariant-satisfying state. -/
theorem foldl_queueInvariant (ops : List PlayerOp) :
    ∀ s : PlayerState, QueueInvariant s → ops.all safeOp = true →
      QueueInvariant (ops.foldl applyOp s) := by
  induction ops with
  | nil => intro s hs _; simpa using hs
  | cons op rest ih =>
    intro s hs hall
    rw [List.all_cons, Bool.and_eq_true] at hall
    obtain ⟨hop, hrest⟩ := hall
    refine ih (applyOp s op) ?_ hrest
    cases op with
    | setCurrentEpisode e n => simp [safeOp] at hop
    | addToQueue e n => exact addToQueue_queueInvariant e n s hs
    | setQueue es n =>
      exact setQueue_queueInvariant es n s (by simpa [safeOp] using hop)
    | playNext n => exact playNext_queueInvariant n s hs
    | playPrevious n => simp [safeOp] at hop

/-- Counterexample to claim C1 as stated: the sequence
`setCurrentEpisode ep1; addToQueue ep2; setCurrentEpisode ep2` leaves the
queue holding the now-current episode `ep2` (because `setCurrentEpisode`
never purges the queue), and a following `playPrevious` then duplicates
`ep2` in the queue (because `playPrevious` pushes the outgoing episode onto
the queue without de-duplication). -/
theorem queue_invariant_counterexample :
    ¬ QueueInvariant (runOps
      [PlayerOp.setCurrentEpisode (some ep1) 0,
        PlayerOp.addToQueue ep2 1,
        PlayerOp.setCurrentEpisode (some ep2) 2]) ∧
    ¬ QueueInvariant (runOps
      [PlayerOp.setCurrentEpisode (some ep1) 0,
        PlayerOp.addToQueue ep2 1,
        PlayerOp.setCurrentEpisode (some ep2) 2,
        PlayerOp.playPrevious 3]) := by
  constructor
  · intro h
    exact absurd h.2 (by decide)
  · intro h
    exact absurd h.1 (by decide)

/-- Claim C1 (amended): after any sequence of `addToQueue`, `setQueue`
(with pairwise-distinct input episode ids) and `playNext` operations from
the empty initial state, the queue contains no two items with the same
episode id and the current episode's id never appears in the queue.
(`setCurrentEpisode` and `playPrevious` are excluded: see
`queue_invariant_counterexample`.) -/
theorem queue_invariant_amended (ops : List PlayerOp)
    (h : ops.all safeOp = true) : QueueInvariant (runOps ops) :=
  foldl_queueInvariant ops initialPlayerState
    ⟨List.nodup_nil, rfl⟩ h

/-- Witness for the amended C1 at a concrete operation sequence. -/
theorem queue_invariant_amended_witness :
    ([PlayerOp.addToQueue ep1 0, PlayerOp.setQueue [ep2, ep3] 1,
        PlayerOp.playNext 2].all safeOp = true) ∧
    QueueInvariant (runOps
      [PlayerOp.addToQueue ep1 0, PlayerOp.setQueue [ep2, ep3] 1,
        PlayerOp.playNext 2]) :=
  ⟨by decide,
    queue_invariant_amended
      [PlayerOp.addToQueue ep1 0, PlayerOp.setQueue [ep2, ep3] 1,
        PlayerOp.playNext 2] (by decide)⟩

/-- History invariant claimed by the spec: at most 20 entries and no
duplicate episode ids. -/
def HistoryInvariant (s : PlayerState) : Prop :=
  s.playHistory.length ≤ 20 ∧ (s.playHistory.map Episode.id).Nodup

/-- The history-update expression shared by `setCurrentEpisode` and
`playNext` (prepend the outgoing episode, drop other occurrences of its id,
cap at 20) yields a list of length at most 20 with duplicate-free ids. -/
theorem pushHistory_invariant (cur : Episode) (hist : List Episode)
    (h : (hist.map Episode.id).Nodup) :
    ((cur :: hist.filter fun e => e.id != cur.id).take 20).length ≤ 20 ∧
    (((cur :: hist.filter fun e => e.id != cur.id).take 20).map
      Episode.id).Nodup := by
  constructor
  · simp [List.length_take]
  · rw [List.map_take]
    have hfull : ((cur :: hist.filter fun e => e.id != cur.id).map Episode.id).Nodup := by
      rw [List.map_cons, List.nodup_cons]
      constructor
      · intro hmem
        simp only [List.mem_map, List.mem_filter, bne_iff_ne, ne_eq] at hmem
        obtain ⟨e, ⟨_, hne⟩, hid⟩ := hmem
        simp [hid] at hne
      · exact h.sublist ((List.filter_sublist hist).map Episode.id)
    exact hfull.sublist (List.take_sublist 20 _)

/-- `setCurrentEpisode` preserves the history invariant. -/
theorem setCurrentEpisode_historyInvariant (e : Option Episode) (now : Nat)
    (s : PlayerState) (h : HistoryInvariant s) :
    HistoryInvariant (setCurrentEpisode e now s) := by
  cases hc : s.currentEpisode with
  | none =>
    have hh : (setCurrentEpisode e now s).playHistory = s.playHistory := by
      simp [setCurrentEpisode, hc]
    exact ⟨hh ▸ h.1, hh ▸ h.2⟩
  | some cur =>
    have hh : (setCurrentEpisode e now s).playHistory =
        (cur :: s.playHistory.filter fun x => x.id != cur.id).take 20 := by
      simp [setCurrentEpisode, hc]
    exact ⟨hh ▸ (pushHistory_invariant cur s.playHistory h.2).1,
      hh ▸ (pushHistory_invariant cur s.playHistory h.2).2⟩

/-- `playNext` preserves the history invariant. -/
theorem playNext_historyInvariant (now : Nat) (s : PlayerState)
    (h : HistoryInvariant s) : HistoryInvariant ((playNext now s).2) := by
  cases hq : s.queue with
  | nil =>
    have hid : playNext now s = (none, s) := by simp [playNext, hq]
    rw [hid]
    exact h
  | cons nextItem restQueue =>
    cases hc : s.currentEpisode with
    | none =>
      have hh : (playNext now s).2.playHistory = s.playHistory := by
        simp [playNext, hq, hc]
      exact ⟨hh ▸ h.1, hh ▸ h.2⟩
    | some cur =>
      have hh : (playNext now s).2.playHistory =
          (cur :: s.playHistory.filter fun x => x.id != cur.id).take 20 := by
        simp [playNext, hq, hc]
      exact ⟨hh ▸ (pushHistory_invariant cur s.playHistory h.2).1,
        hh ▸ (pushHistory_invariant cur s.playHistory h.2).2⟩

/-- The operations claim C7 quantifies over: `setCurrentEpisode` and
`playNext`. -/
def historyOp : PlayerOp → Bool
  | PlayerOp.setCurrentEpisode _ _ => true
  | PlayerOp.playNext _ => true
  | _ => false

/-- The history invariant holds after any fold of `setCurrentEpisode` and
`playNext` operations from an invariant-satisfying state. -/
theorem foldl_historyInvariant (ops : List PlayerOp) :
    ∀ s : PlayerState, HistoryInvariant s → ops.all historyOp = true →
      HistoryInvariant (ops.foldl applyOp s) := by
  induction ops with
  | nil => intro s hs _; simpa using hs
  | cons op rest ih =>
    intro s hs hall
    rw [List.all_cons, Bool.and_eq_true] at hall
    obtain ⟨hop, hrest⟩ := hall
    refine ih (applyOp s op) ?_ hrest
    cases op with
    | setCurrentEpisode e n => exact setCurrentEpisode_historyInvariant e n s hs
    | addToQueue e n => simp [historyOp] at hop
    | setQueue es n => simp [historyOp] at hop
    | playNext n => exact playNext_historyInvariant n s hs
    | playPrevious n => simp [historyOp] at hop

/-- Twenty-five `setCurrentEpisode` calls with pairwise-distinct episode
ids (the concrete scenario in claim C7). -/
def distinct25Ops : List PlayerOp :=
  (List.range 25).map fun i =>
    PlayerOp.setCurrentEpisode
      (some { id := toString i, showId := "show1", title := "L"
              audioUrl := "u", duration := 0, fileSize := 0 }) i

/-- Claim C7: after any sequence of `setCurrentEpisode` and `playNext`
operations from the empty initial state, the play history has at most 20
entries and no duplicate episode ids; pushing the outgoing current episode
moves it to the front (it becomes the head and its id occurs nowhere in the
tail); and after 25 `setCurrentEpisode` calls with distinct episodes the
history length is at most 20. -/
theorem history_invariant_spec :
    (∀ ops : List PlayerOp, ops.all historyOp = true →
      HistoryInvariant (runOps ops)) ∧
    (∀ (s : PlayerState) (cur : Episode) (e : Option Episode) (now : Nat),
      s.currentEpisode = some cur →
      (setCurrentEpisode e now s).playHistory.head? = some cur ∧
      ∀ x ∈ (setCurrentEpisode e now s).playHistory.tail, x.id ≠ cur.id) ∧
    (runOps distinct25Ops).playHistory.length ≤ 20 := by
  refine ⟨fun ops h => foldl_historyInvariant ops initialPlayerState
      ⟨by simp [initialPlayerState], by simp [initialPlayerState]⟩ h,
    fun s cur e now hc => ?_, by decide⟩
  have hh : (setCurrentEpisode e now s).playHistory =
      (cur :: s.playHistory.filter fun x => x.id != cur.id).take 20 := by
    simp [setCurrentEpisode, hc]
  have htake : ((cur :: s.playHistory.filter fun x => x.id != cur.id).take 20)
      = cur :: (s.playHistory.filter fun x => x.id != cur.id).take 19 := rfl
  rw [hh, htake]
  refine ⟨rfl, fun x hx => ?_⟩
  have hxf : x ∈ s.playHistory.filter fun x => x.id != cur.id :=
    List.take_subset 19 _ hx
  have := (List.mem_filter.mp hxf).2
  simpa using this

/-- Witness for C7: the invariant clause at a concrete two-operation
sequence, and the move-to-front clause at the concrete scenario state
(current = ep2). -/
theorem history_invariant_spec_witness :
    ([PlayerOp.setCurrentEpisode (some ep1) 0, PlayerOp.playNext 1].all
        historyOp = true) ∧
    HistoryInvariant (runOps
      [PlayerOp.setCurrentEpisode (some ep1) 0, PlayerOp.playNext 1]) ∧
    (statePrevExample.currentEpisode = some ep2 ∧
      (setCurrentEpisode (some ep3) 4 statePrevExample).playHistory.head? =
        some ep2) :=
  ⟨by decide,
    history_invariant_spec.1
      [PlayerOp.setCurrentEpisode (some ep1) 0, PlayerOp.playNext 1]
      (by decide),
    ⟨rfl,
      (history_invariant_spec.2.1 statePrevExample ep2 (some ep3) 4 rfl).1⟩⟩

/-- Download status, from `src/types`. -/
inductive DownloadStatus where
  | queued
  | downloading
  | completed
  | failed
  | cancelled
deriving DecidableEq

/-- DownloadProgress, from `src/types`. -/
structure DownloadProgress where
  episodeId : String
  progress : Nat
  bytesWritten : Nat
  totalBytes : Nat
  status : DownloadStatus
deriving DecidableEq

/-- DownloadedEpisode, from `src/types`: an episode plus local path and
download timestamp. -/
structure DownloadedEpisode extends Episode where
  localPath : String
  downloadedAt : Nat
deriving DecidableEq

/-- State of the download store (`src/stores/downloadStore.ts`). -/
structure DownloadState where
  downloads : String → Option DownloadedEpisode
  activeDownloads : String → Option DownloadProgress
  downloadQueue : List String

/-- Initial state of the download store. -/
def initialDownloadState : DownloadState where
  downloads := fun _ => none
  activeDownloads := fun _ => none
  downloadQueue := []

/-- `addDownload` store action: upserts the completed-download record. -/
def addDownload (episode : Episode) (localPath : String) (now : Nat)
    (d : DownloadState) : DownloadState :=
  { d with
    downloads :=
      recordSet d.downloads episode.id
        { toEpisode := episode, localPath := localPath, downloadedAt := now } }

/-- `isDownloaded` store action: `!!get().downloads[episodeId]`. -/
def isDownloaded (d : DownloadState) (episodeId : String) : Bool :=
  (d.downloads episodeId).isSome

/-- `getLocalPath` store action: `download?.localPath || null`.  An empty
string is falsy in JavaScript, hence maps to `none`. -/
def getLocalPath (d : DownloadState) (episodeId : String) : Option String :=
  match d.downloads episodeId with
  | some download => if download.localPath = "" then none else some download.localPath
  | none => none

/-- `setDownloadProgress` store action: upserts the in-flight progress
record. -/
def setDownloadProgress (episodeId : String) (progress : DownloadProgress)
    (d : DownloadState) : DownloadState :=
  { d with activeDownloads := recordSet d.activeDownloads episodeId progress }

/-- `removeDownloadProgress` store action: deletes the in-flight progress
record. -/
def removeDownloadProgress (episodeId : String) (d : DownloadState) :
    DownloadState :=
  { d with activeDownloads := recordDelete d.activeDownloads episodeId }

/-- Throttle interval of the progress callback in
`src/hooks/useDownloads.ts`. -/
def PROGRESS_UPDATE_INTERVAL : Nat := 500

/-- One invocation of the throttled progress callback: the wall-clock time
of the `Date.now()` read, and the progress value delivered by the download
service. -/
structure ProgressEvent where
  time : Nat
  progress : DownloadProgress
deriving DecidableEq

/-- One step of `startDownload`'s progress callback, from
`src/hooks/useDownloads.ts`: apply the update to the store (and remember
the time) when the status is `completed` or at least
`PROGRESS_UPDATE_INTERVAL` ms have passed since the last applied update;
otherwise drop it.  The accumulator carries the `lastProgressUpdateRef`
timestamp, the download store state, and (as observer instrumentation) the
list of events whose updates reached the store. -/
def throttleStep (episodeId : String)
    (acc : Nat × DownloadState × List ProgressEvent) (ev : ProgressEvent) :
    Nat × DownloadState × List ProgressEvent :=
  if ev.progress.status = DownloadStatus.completed ∨
      PROGRESS_UPDATE_INTERVAL ≤ ev.time - acc.1 then
    (ev.time, setDownloadProgress episodeId ev.progress acc.2.1,
      acc.2.2 ++ [ev])
  else acc

/-- Run a sequence of progress callbacks for one episode, starting from the
timestamp 0 installed by `startDownload`
(`lastProgressUpdateRef.current[episode.id] = 0`). -/
def runProgressCallbacks (episodeId : String) (d : DownloadState)
    (events : List ProgressEvent) : Nat × DownloadState × List ProgressEvent :=
  events.foldl (throttleStep episodeId) (0, d, [])

/-- The progress updates that reached the store. -/
def appliedUpdates (episodeId : String) (d : DownloadState)
    (events : List ProgressEvent) : List ProgressEvent :=
  (runProgressCallbacks episodeId d events).2.2

/-- The throttle guarantee between two applied updates: a later applied
non-terminal update is at least the throttle interval after any earlier
applied update. -/
def appliedGap (a b : ProgressEvent) : Prop :=
  b.progress.status ≠ DownloadStatus.completed →
    a.time + PROGRESS_UPDATE_INTERVAL ≤ b.time

/-- Invariant of the throttled-callback fold: the applied list keeps the
gap property, completed events are always applied, previously applied
events stay applied, and every applied event's time is bounded by the
remembered timestamp. -/
theorem throttle_fold_aux (episodeId : String) :
    ∀ (events : List ProgressEvent) (lastUpdate : Nat) (d : DownloadState)
      (applied : List ProgressEvent),
      events.Pairwise (fun a b => a.time ≤ b.time) →
      (∀ e ∈ events, lastUpdate ≤ e.time) →
      applied.Pairwise appliedGap →
      (∀ a ∈ applied, a.time ≤ lastUpdate) →
      (events.foldl (throttleStep episodeId) (lastUpdate, d, applied)).2.2.Pairwise
          appliedGap ∧
        (∀ ev ∈ events, ev.progress.status = DownloadStatus.completed →
          ev ∈ (events.foldl (throttleStep episodeId)
            (lastUpdate, d, applied)).2.2) ∧
        (∀ a ∈ applied,
          a ∈ (events.foldl (throttleStep episodeId) (lastUpdate, d, applied)).2.2) ∧
        (∀ a ∈ (events.foldl (throttleStep episodeId)
            (lastUpdate, d, applied)).2.2,
          a.time ≤ (events.foldl (throttleStep episodeId)
            (lastUpdate, d, applied)).1) := by
  intro events
  induction events with
  | nil =>
    intro lastUpdate d applied _ _ hpw hbound
    exact ⟨hpw, fun ev hev => absurd hev (List.not_mem_nil ev),
      fun a ha => ha, hbound⟩
  | cons ev evs ih =>
    intro lastUpdate d applied hmono hle hpw hbound
    rw [List.pairwise_cons] at hmono
    obtain ⟨hev_le, hmono'⟩ := hmono
    have hlu_ev : lastUpdate ≤ ev.time := hle ev (List.mem_cons_self ev evs)
    by_cases hcond : ev.progress.status = DownloadStatus.completed ∨
        PROGRESS_UPDATE_INTERVAL ≤ ev.time - lastUpdate
    · have hstep : throttleStep episodeId (lastUpdate, d, applied) ev =
          (ev.time, setDownloadProgress episodeId ev.progress d,
            applied ++ [ev]) := by
        simp [throttleStep, hcond]
      rw [List.foldl_cons, hstep]
      have hpw' : (applied ++ [ev]).Pairwise appliedGap := by
        rw [List.pairwise_append]
        refine ⟨hpw, List.pairwise_singleton _ _, ?_⟩
        intro a ha b hb
        simp only [List.mem_singleton] at hb
        rw [hb]
        intro hnc
        have hgap : PROGRESS_UPDATE_INTERVAL ≤ ev.time - lastUpdate := by
          rcases hcond with hcomp | hgap
          · exact absurd hcomp hnc
          · exact hgap
        have hat := hbound a ha
        simp only [PROGRESS_UPDATE_INTERVAL] at hgap ⊢
        omega
      have hbound' : ∀ a ∈ applied ++ [ev], a.time ≤ ev.time := by
        intro a ha
        rcases List.mem_append.mp ha with hl | hr
        · exact le_trans (hbound a hl) hlu_ev
        · simp only [List.mem_singleton] at hr
          subst hr
          exact le_rfl
      have := ih ev.time (setDownloadProgress episodeId ev.progress d)
        (applied ++ [ev]) hmono' hev_le hpw' hbound'
      refine ⟨this.1, ?_, ?_, this.2.2.2⟩
      · intro e he hcomp
        rcases List.mem_cons.mp he with rfl | hmem
        · exact this.2.2.1 e (List.mem_append.mpr (Or.inr (List.mem_singleton.mpr rfl)))
        · exact this.2.1 e hmem hcomp
      · intro a ha
        exact this.2.2.1 a (List.mem_append.mpr (Or.inl ha))
    · have hstep : throttleStep episodeId (lastUpdate, d, applied) ev =
          (lastUpdate, d, applied) := by
        simp only [throttleStep, if_neg hcond]
      rw [List.foldl_cons, hstep]
      have hle' : ∀ e ∈ evs, lastUpdate ≤ e.time :=
        fun e he => hle e (List.mem_cons_of_mem ev he)
      have := ih lastUpdate d applied hmono' hle' hpw hbound
      refine ⟨this.1, ?_, this.2.2.1, this.2.2.2⟩
      intro e he hcomp
      rcases List.mem_cons.mp he with rfl | hmem
      · exact absurd (Or.inl hcomp) hcond
      · exact this.2.1 e hmem hcomp

/-- Claim C4: over any wall-clock-monotone sequence of progress callbacks
for one episode, every `completed` update reaches the store (the terminal
update is never dropped by throttling), and any applied non-terminal
update comes at least `PROGRESS_UPDATE_INTERVAL` (500 ms) after every
earlier applied update, so non-terminal updates reach the store at most
once per 500 ms. -/
theorem download_throttle_spec (episodeId : String) (d : DownloadState)
    (events : List ProgressEvent)
    (hmono : events.Pairwise fun a b => a.time ≤ b.time) :
    (∀ ev ∈ events, ev.progress.status = DownloadStatus.completed →
      ev ∈ appliedUpdates episodeId d events) ∧
    (appliedUpdates episodeId d events).Pairwise appliedGap := by
  have h := throttle_fold_aux episodeId events 0 d []
    hmono (fun e _ => Nat.zero_le _) List.Pairwise.nil
    (fun a ha => absurd ha (List.not_mem_nil a))
  exact ⟨h.2.1, h.1⟩

/-- Test fixture: a non-terminal progress event at 100 ms. -/
def evDownloading100 : ProgressEvent :=
  { time := 100
    progress := { episodeId := "e1", progress := 10, bytesWritten := 100
                  totalBytes := 1000, status := DownloadStatus.downloading } }

/-- Test fixture: a non-terminal progress event at 300 ms (inside the
throttle window of the previous applied update). -/
def evDownloading300 : ProgressEvent :=
  { time := 300
    progress := { episodeId := "e1", progress := 30, bytesWritten := 300
                  totalBytes := 1000, status := DownloadStatus.downloading } }

/-- Test fixture: the terminal progress event at 350 ms. -/
def evCompleted350 : ProgressEvent :=
  { time := 350
    progress := { episodeId := "e1", progress := 100, bytesWritten := 1000
                  totalBytes := 1000, status := DownloadStatus.completed } }

/-- Witness for C4: on the concrete monotone event sequence
[100 ms downloading, 300 ms downloading, 350 ms completed] the terminal
event reaches the store even though it arrives well inside the throttle
window. -/
theorem download_throttle_spec_witness :
    ([evDownloading100, evDownloading300, evCompleted350].Pairwise
        fun a b => a.time ≤ b.time) ∧
    evCompleted350 ∈ appliedUpdates "e1" initialDownloadState
      [evDownloading100, evDownloading300, evCompleted350] :=
  ⟨by decide,
    (download_throttle_spec "e1" initialDownloadState
        [evDownloading100, evDownloading300, evCompleted350] (by decide)).1
      evCompleted350 (by decide) rfl⟩

/-- The download-store states traversed by `startDownload`'s success path
(`src/hooks/useDownloads.ts`): the guarded entry state, the state after the
initial 0% progress record, the state after the throttled progress
callbacks, the state right after `addDownload`, and the state after
`removeDownloadProgress`.  (The callback steps in between touch only
`activeDownloads`, see `runProgressCallbacks_downloads`.) -/
def startDownloadStates (episode : Episode) (events : List ProgressEvent)
    (localPath : String) (now : Nat) (d : DownloadState) :
    List DownloadState :=
  if isDownloaded d episode.id then [d]
  else
    let d1 := setDownloadProgress episode.id
      { episodeId := episode.id, progress := 0, bytesWritten := 0
        totalBytes := episode.fileSize, status := DownloadStatus.downloading } d
    let d2 := (runProgressCallbacks episode.id d1 events).2.1
    let d3 := addDownload episode localPath now d2
    let d4 := removeDownloadProgress episode.id d3
    [d, d1, d2, d3, d4]

/-- The download-store state after `startDownload`'s success path
completes (the last element of `startDownloadStates`). -/
def startDownload (episode : Episode) (events : List ProgressEvent)
    (localPath : String) (now : Nat) (d : DownloadState) : DownloadState :=
  if isDownloaded d episode.id then d
  else
    let d1 := setDownloadProgress episode.id
      { episodeId := episode.id, progress := 0, bytesWritten := 0
        totalBytes := episode.fileSize, status := DownloadStatus.downloading } d
    let d2 := (runProgressCallbacks episode.id d1 events).2.1
    let d3 := addDownload episode localPath now d2
    removeDownloadProgress episode.id d3

/-- Both the in-flight progress record and the completed-download record
are present for the given episode id. -/
def bothPresent (d : DownloadState) (episodeId : String) : Bool :=
  (d.downloads episodeId).isSome && (d.activeDownloads episodeId).isSome

/-- The throttled callback fold never touches the `downloads` map. -/
theorem foldl_throttleStep_downloads (episodeId : String)
    (events : List ProgressEvent) :
    ∀ acc : Nat × DownloadState × List ProgressEvent,
      (events.foldl (throttleStep episodeId) acc).2.1.downloads =
        acc.2.1.downloads := by
  induction events with
  | nil => intro acc; rfl
  | cons ev evs ih =>
    intro acc
    rw [List.foldl_cons, ih]
    unfold throttleStep
    split <;> rfl

/-- `runProgressCallbacks` never touches the `downloads` map. -/
theorem runProgressCallbacks_downloads (episodeId : String)
    (d : DownloadState) (events : List ProgressEvent) :
    (runProgressCallbacks episodeId d events).2.1.downloads = d.downloads :=
  foldl_throttleStep_downloads episodeId events (0, d, [])

/-- Counterexample to claim C9 as stated: starting a download of `ep1` on
the empty download store, the state reached right after `addDownload` and
before `removeDownloadProgress` holds both the completed-download record
and the still-live progress record for `ep1`. -/
theorem download_records_counterexample :
    ((startDownloadStates ep1 [] "file:///downloads/e1.mp3" 5
        initialDownloadState).any fun st => bothPresent st ep1.id) = true := by
  decide

/-- Claim C9 (amended): during `startDownload`'s lifecycle the in-flight
progress record and the completed-download record are never both present
for the episode id — except at the single instant inside the completion
transition after `addDownload` and before `removeDownloadProgress`: at most
one traversed state has both records, and the state in which
`startDownload` completes never does. -/
theorem download_records_amended (episode : Episode)
    (events : List ProgressEvent) (localPath : String) (now : Nat)
    (d : DownloadState) (h : bothPresent d episode.id = false) :
    ((startDownloadStates episode events localPath now d).filter
        (fun st => bothPresent st episode.id)).length ≤ 1 ∧
    bothPresent (startDownload episode events localPath now d) episode.id =
      false := by
  by_cases hdl : isDownloaded d episode.id = true
  · constructor
    · have htr : startDownloadStates episode events localPath now d = [d] := by
        simp [startDownloadStates, hdl]
      rw [htr]
      simp [List.filter, h]
    · have hfin : startDownload episode events localPath now d = d := by
        simp [startDownload, hdl]
      rw [hfin]
      exact h
  · have hdl' : isDownloaded d episode.id = false :=
      Bool.not_eq_true _ ▸ eq_false_of_ne_true hdl
    have hdn : d.downloads episode.id = none := by
      cases ho : d.downloads episode.id with
      | none => rfl
      | some v => simp [isDownloaded, ho] at hdl'
    have hb1 : bothPresent (setDownloadProgress episode.id
        { episodeId := episode.id, progress := 0, bytesWritten := 0
          totalBytes := episode.fileSize, status := DownloadStatus.downloading } d)
        episode.id = false := by
      simp [bothPresent, setDownloadProgress, hdn]
    have hb2 : ∀ d' : DownloadState, d'.downloads = d.downloads →
        bothPresent d' episode.id = false := by
      intro d' hd'
      simp [bothPresent, hd', hdn]
    have hb4 : ∀ d' : DownloadState,
        bothPresent (removeDownloadProgress episode.id d') episode.id = false := by
      intro d'
      simp [bothPresent, removeDownloadProgress, recordDelete]
    constructor
    · have htr : startDownloadStates episode events localPath now d =
          [d,
            setDownloadProgress episode.id
              { episodeId := episode.id, progress := 0, bytesWritten := 0
                totalBytes := episode.fileSize
                status := DownloadStatus.downloading } d,
            (runProgressCallbacks episode.id
              (setDownloadProgress episode.id
                { episodeId := episode.id, progress := 0, bytesWritten := 0
                  totalBytes := episode.fileSize
                  status := DownloadStatus.downloading } d) events).2.1,
            addDownload episode localPath now
              ((runProgressCallbacks episode.id
                (setDownloadProgress episode.id
                  { episodeId := episode.id, progress := 0, bytesWritten := 0
                    totalBytes := episode.fileSize
                    status := DownloadStatus.downloading } d) events).2.1),
            removeDownloadProgress episode.id
              (addDownload episode localPath now
                ((runProgressCallbacks episode.id
                  (setDownloadProgress episode.id
                    { episodeId := episode.id, progress := 0, bytesWritten := 0
                      totalBytes := episode.fileSize
                      status := DownloadStatus.downloading } d) events).2.1))] := by
        simp [startDownloadStates, hdl']
      rw [htr]
      have hb2' : bothPresent
          ((runProgressCallbacks episode.id
            (setDownloadProgress episode.id
              { episodeId := episode.id, progress := 0, bytesWritten := 0
                totalBytes := episode.fileSize
                status := DownloadStatus.downloading } d) events).2.1)
          episode.id = false := by
        apply hb2
        rw [runProgressCallbacks_downloads]
        rfl
      rw [List.filter_cons, List.filter_cons, List.filter_cons,
        List.filter_cons, List.filter_cons]
      simp only [h, hb1, hb2', hb4, Bool.false_eq_true, if_false,
        List.filter_nil]
      cases hb3 : bothPresent (addDownload episode localPath now
          ((runProgressCallbacks episode.id
            (setDownloadProgress episode.id
              { episodeId := episode.id, progress := 0, bytesWritten := 0
                totalBytes := episode.fileSize
                status := DownloadStatus.downloading } d) events).2.1))
          episode.id <;> simp
    · have hfin : startDownload episode events localPath now d =
          removeDownloadProgress episode.id
            (addDownload episode localPath now
              ((runProgressCallbacks episode.id
                (setDownloadProgress episode.id
                  { episodeId := episode.id, progress := 0, bytesWritten := 0
                    totalBytes := episode.fileSize
                    status := DownloadStatus.downloading } d) events).2.1)) := by
        simp [startDownload, hdl']
      rw [hfin]
      exact hb4 _

/-- Witness for the amended C9 on the empty download store: the traversed
states hold both records at most once and the final state holds at most
one of them. -/
theorem download_records_amended_witness :
    (bothPresent initialDownloadState ep1.id = false) ∧
    ((startDownloadStates ep1 [] "file:///downloads/e1.mp3" 5
        initialDownloadState).filter
      (fun st => bothPresent st ep1.id)).length ≤ 1 ∧
    bothPresent (startDownload ep1 [] "file:///downloads/e1.mp3" 5
      initialDownloadState) ep1.id = false :=
  ⟨rfl,
    (download_records_amended ep1 [] "file:///downloads/e1.mp3" 5
      initialDownloadState rfl).1,
    (download_records_amended ep1 [] "file:///downloads/e1.mp3" 5
      initialDownloadState rfl).2⟩

/-- A command issued to the native audio engine (`audioService`): either a
seek within the loaded track, or loading and playing an episode from a
resolved uri at a start offset. -/
inductive AudioCommand where
  | seekTo (positionMillis : Nat)
  | play (episode : Episode) (uri : String) (startTimeMs : Nat)
deriving DecidableEq

/-- `getEpisodesByShowId` from the feed store: the episodes of one show,
in the feed store's episode order. -/
def getEpisodesByShowId (episodes : List Episode) (showId : String) :
    List Episode :=
  episodes.filter fun episode => episode.showId == showId

/-- `skipToPrevious` from `src/hooks/useAudioPlayer.ts` (history-based
variant): when more than 3000 ms into the track, restart it (seek to 0);
otherwise pop the play history via `playPrevious` and play the popped
episode (local file preferred, resuming from its saved position), or
restart when the history is empty. -/
def skipToPrevious (positionNow : Nat) (dstore : DownloadState) (now : Nat)
    (s : PlayerState) : AudioCommand × PlayerState :=
  if positionNow > 3000 then (AudioCommand.seekTo 0, s)
  else
    match playPrevious now s with
    | (some prevEpisode, s1) =>
      let s2 := { s1 with isPlayRequested := true }
      let localPath := getLocalPath dstore prevEpisode.id
      let uri := localPath.getD prevEpisode.audioUrl
      let initialPosition := getSavedPosition s2 prevEpisode.id
      (AudioCommand.play prevEpisode uri initialPosition, s2)
    | (none, s1) => (AudioCommand.seekTo 0, s1)

/-- `skipToPrevious` from `src/hooks/useAudioPlayer.ts` (series-relative
variant): when more than 3000 ms into the track, restart it; otherwise
navigate to the episode immediately preceding the current one in its
show's episode list, saving the position, rebuilding the queue from the
current episode onward, and playing the previous episode; restart when
there is no current episode or it is first in (or absent from) the list.
The inner `none` branch of the list lookup is unreachable: `findIdx?`
returns an in-range index. -/
def skipToPreviousSeries (positionNow : Nat) (feedEpisodes : List Episode)
    (dstore : DownloadState) (now : Nat) (s : PlayerState) :
    AudioCommand × PlayerState :=
  if positionNow > 3000 then (AudioCommand.seekTo 0, s)
  else
    match s.currentEpisode with
    | none => (AudioCommand.seekTo 0, s)
    | some currentEp =>
      let showEpisodes := getEpisodesByShowId feedEpisodes currentEp.showId
      match showEpisodes.findIdx? (fun ep => ep.id == currentEp.id) with
      | some currentIndex =>
        if currentIndex > 0 then
          match showEpisodes.get? (currentIndex - 1) with
          | some prevEpisode =>
            let s1 :=
              if positionNow > 0 then savePosition currentEp.id positionNow now s
              else s
            let s2 := setCurrentEpisode (some prevEpisode) now s1
            let s3 := setQueue (showEpisodes.drop currentIndex) now s2
            let s4 := { s3 with isPlayRequested := true }
            let uri := (getLocalPath dstore prevEpisode.id).getD prevEpisode.audioUrl
            let initialPosition := getSavedPosition s4 prevEpisode.id
            (AudioCommand.play prevEpisode uri initialPosition, s4)
          | none => (AudioCommand.seekTo 0, s)
        else (AudioCommand.seekTo 0, s)
      | none => (AudioCommand.seekTo 0, s)

/-- `playEpisode` from `src/hooks/useAudioPlayer.ts`: resolve the source
(local download preferred over the remote url), resolve the start offset
(0 when starting from the beginning, else the saved position), make the
episode current, and — only when the episode occurs in its show's list at
a non-final position — replace the queue with the episodes after it. -/
def playEpisode (feedEpisodes : List Episode) (dstore : DownloadState)
    (episode : Episode) (startFromBeginning : Bool) (now : Nat)
    (s : PlayerState) : AudioCommand × PlayerState :=
  let s0 := { s with isLoading := true, isPlayRequested := true }
  let localPath := getLocalPath dstore episode.id
  let uri := localPath.getD episode.audioUrl
  let initialPosition :=
    if startFromBeginning then 0 else getSavedPosition s0 episode.id
  let s1 := setCurrentEpisode (some episode) now s0
  let showEpisodes := getEpisodesByShowId feedEpisodes episode.showId
  let s2 :=
    match showEpisodes.findIdx? (fun ep => ep.id == episode.id) with
    | some currentIndex =>
      if currentIndex + 1 < showEpisodes.length then
        setQueue (showEpisodes.drop (currentIndex + 1)) now s1
      else s1
    | none => s1
  (AudioCommand.play episode uri initialPosition, s2)

/-- Counterexample to claim C2 as stated: from current = ep2 with
history = [ep1], skip-to-previous at position 2999 ms does not restart —
it navigates (the current episode changes to ep1) — while at 3001 ms with
a previous track available it restarts (seek to 0, state unchanged)
instead of navigating.  The series-relative variant behaves the same way
at 3001 ms. -/
theorem skipToPrevious_boundary_counterexample :
    (skipToPrevious 2999 initialDownloadState 4 statePrevExample).2.currentEpisode =
        some ep1 ∧
    ¬ (skipToPrevious 2999 initialDownloadState 4 statePrevExample).2.currentEpisode =
        some ep2 ∧
    skipToPrevious 3001 initialDownloadState 4 statePrevExample =
      (AudioCommand.seekTo 0, statePrevExample) ∧
    skipToPreviousSeries 3001 [ep1, ep2] initialDownloadState 4 statePrevExample =
      (AudioCommand.seekTo 0, statePrevExample) := by
  refine ⟨rfl, by decide, rfl, rfl⟩

/-- Claim C2 (amended, thresholds swapped to match the 3000 ms boundary in
the code): at position 3001 ms skip-to-previous restarts the current track
(seeks to 0 and leaves the whole state, in particular the current episode,
unchanged) in both variants; at position 2999 ms with a previous track
available it navigates to the previous track — the history head for the
history-based variant, the preceding episode of the show for the
series-relative variant. -/
theorem skipToPrevious_boundary_amended (dstore : DownloadState) (now : Nat)
    (s : PlayerState) (feedEpisodes : List Episode) :
    (skipToPrevious 3001 dstore now s = (AudioCommand.seekTo 0, s)) ∧
    (skipToPreviousSeries 3001 feedEpisodes dstore now s =
      (AudioCommand.seekTo 0, s)) ∧
    (∀ prevEpisode restHistory, s.playHistory = prevEpisode :: restHistory →
      (skipToPrevious 2999 dstore now s).2.currentEpisode = some prevEpisode ∧
      (skipToPrevious 2999 dstore now s).1 =
        AudioCommand.play prevEpisode
          ((getLocalPath dstore prevEpisode.id).getD prevEpisode.audioUrl)
          (getSavedPosition (playPrevious now s).2 prevEpisode.id)) ∧
    (∀ currentEp currentIndex prevEpisode,
      s.currentEpisode = some currentEp →
      (getEpisodesByShowId feedEpisodes currentEp.showId).findIdx?
          (fun ep => ep.id == currentEp.id) = some currentIndex →
      currentIndex > 0 →
      (getEpisodesByShowId feedEpisodes currentEp.showId).get?
          (currentIndex - 1) = some prevEpisode →
      (skipToPreviousSeries 2999 feedEpisodes dstore now s).2.currentEpisode =
          some prevEpisode ∧
      (skipToPreviousSeries 2999 feedEpisodes dstore now s).1 =
        AudioCommand.play prevEpisode
          ((getLocalPath dstore prevEpisode.id).getD prevEpisode.audioUrl)
          (getSavedPosition
            (skipToPreviousSeries 2999 feedEpisodes dstore now s).2
            prevEpisode.id)) := by
  refine ⟨?_, ?_, fun prevEpisode restHistory hh => ?_, ?_⟩
  · simp [skipToPrevious]
  · simp [skipToPreviousSeries]
  · have h3 : ¬ (2999 > 3000) := by omega
    constructor
    · cases hp : playPrevious now s with
      | mk fst snd =>
        have hfst : fst = some prevEpisode := by
          have := (playPrevious_spec now s).2.1 prevEpisode restHistory hh
          rw [hp] at this
          exact this.1
        subst hfst
        simp only [skipToPrevious, if_neg h3, hp]
        have := (playPrevious_spec now s).2.1 prevEpisode restHistory hh
        rw [hp] at this
        exact this.2.1
    · cases hp : playPrevious now s with
      | mk fst snd =>
        have hfst : fst = some prevEpisode := by
          have := (playPrevious_spec now s).2.1 prevEpisode restHistory hh
          rw [hp] at this
          exact this.1
        subst hfst
        simp only [skipToPrevious, if_neg h3, hp]
        rfl
  · intro currentEp currentIndex prevEpisode hc hidx hpos hget
    have h3 : ¬ (2999 > 3000) := by omega
    have h0 : (2999 > 0) := by omega
    constructor
    · simp only [skipToPreviousSeries, if_neg h3, hc, hidx, if_pos hpos,
        hget, if_pos h0]
      rfl
    · simp only [skipToPreviousSeries, if_neg h3, hc, hidx, if_pos hpos,
        hget, if_pos h0]

/-- Witness for the amended C2: history-based navigation from
current = ep2, history = [ep1] at 2999 ms, and the restart at 3001 ms;
series-relative navigation over the feed [ep1, ep2]. -/
theorem skipToPrevious_boundary_amended_witness :
    (statePrevExample.playHistory = ep1 :: [] ∧
      (skipToPrevious 2999 initialDownloadState 4 statePrevExample).2.currentEpisode =
        some ep1) ∧
    skipToPrevious 3001 initialDownloadState 4 statePrevExample =
      (AudioCommand.seekTo 0, statePrevExample) ∧
    (statePrevExample.currentEpisode = some ep2 ∧
      (skipToPreviousSeries 2999 [ep1, ep2] initialDownloadState 4
        statePrevExample).2.currentEpisode = some ep1) :=
  ⟨⟨rfl,
      ((skipToPrevious_boundary_amended initialDownloadState 4 statePrevExample
          [ep1, ep2]).2.2.1 ep1 [] rfl).1⟩,
    (skipToPrevious_boundary_amended initialDownloadState 4 statePrevExample
      [ep1, ep2]).1,
    ⟨rfl,
      ((skipToPrevious_boundary_amended initialDownloadState 4 statePrevExample
          [ep1, ep2]).2.2.2 ep2 1 ep1 rfl (by decide) (by decide) (by decide)).1⟩⟩

/-- `savePosition` touches only the saved-positions map; the queue is
unchanged. -/
theorem savePosition_queue (episodeId : String) (position now : Nat)
    (s : PlayerState) : (savePosition episodeId position now s).queue = s.queue := by
  unfold savePosition
  split <;> rfl

/-- `setCurrentEpisode` never touches the queue. -/
theorem setCurrentEpisode_queue (e : Option Episode) (now : Nat)
    (s : PlayerState) : (setCurrentEpisode e now s).queue = s.queue := by
  unfold setCurrentEpisode
  cases hc : s.currentEpisode with
  | none => rfl
  | some cur =>
    by_cases hp : s.position > 0 <;> simp [hp, savePosition_queue]

/-- Counterexample to claim C8 as stated: playing ep1 when it is the last
(here: only) episode of its show does not replace the queue — the guard
`currentIndex < showEpisodes.length - 1` skips `setQueue`, so a previously
queued ep3 survives, where the claim demands the queue become exactly the
(empty) list of episodes after ep1. -/
theorem playEpisode_queue_counterexample :
    ¬ ((playEpisode [ep1] initialDownloadState ep1 true 0
        { initialPlayerState with
          queue := [{ episode := ep3, addedAt := 0 }] }).2.queue = []) := by
  decide

/-- Claim C8 (amended): `playEpisode` plays from the locally recorded
download path when one exists and from the remote audio url otherwise;
starts at offset 0 when `startFromBeginning` is set and at the saved
position otherwise; sets the episode as current; and — when the episode
occurs in its show's episode list at a non-final position — replaces the
queue with exactly the episodes after it (the episode's own id filtered
out).  When the episode is absent from the list or is its final entry, the
queue is left unchanged. -/
theorem playEpisode_amended (feedEpisodes : List Episode)
    (dstore : DownloadState) (episode : Episode) (startFromBeginning : Bool)
    (now : Nat) (s : PlayerState) :
    (∀ p, getLocalPath dstore episode.id = some p →
      (playEpisode feedEpisodes dstore episode startFromBeginning now s).1 =
        AudioCommand.play episode p
          (if startFromBeginning then 0 else getSavedPosition s episode.id)) ∧
    (getLocalPath dstore episode.id = none →
      (playEpisode feedEpisodes dstore episode startFromBeginning now s).1 =
        AudioCommand.play episode episode.audioUrl
          (if startFromBeginning then 0 else getSavedPosition s episode.id)) ∧
    ((playEpisode feedEpisodes dstore episode startFromBeginning now s).2.currentEpisode =
      some episode) ∧
    (∀ currentIndex,
      (getEpisodesByShowId feedEpisodes episode.showId).findIdx?
          (fun ep => ep.id == episode.id) = some currentIndex →
      currentIndex + 1 < (getEpisodesByShowId feedEpisodes episode.showId).length →
      (playEpisode feedEpisodes dstore episode startFromBeginning now
          s).2.queue.map QueueItem.episode =
        ((getEpisodesByShowId feedEpisodes episode.showId).drop
            (currentIndex + 1)).filter (fun ep => ep.id != episode.id)) ∧
    ((getEpisodesByShowId feedEpisodes episode.showId).findIdx?
        (fun ep => ep.id == episode.id) = none →
      (playEpisode feedEpisodes dstore episode startFromBeginning now
        s).2.queue = s.queue) ∧
    (∀ currentIndex,
      (getEpisodesByShowId feedEpisodes episode.showId).findIdx?
          (fun ep => ep.id == episode.id) = some currentIndex →
      ¬ (currentIndex + 1 <
          (getEpisodesByShowId feedEpisodes episode.showId).length) →
      (playEpisode feedEpisodes dstore episode startFromBeginning now
        s).2.queue = s.queue) := by
  refine ⟨fun p hp => ?_, fun hp => ?_, ?_, fun currentIndex hidx hlen => ?_,
    fun hidx => ?_, fun currentIndex hidx hlen => ?_⟩
  · simp only [playEpisode, hp]
    rfl
  · simp only [playEpisode, hp]
    rfl
  · cases hidx : (getEpisodesByShowId feedEpisodes episode.showId).findIdx?
        (fun ep => ep.id == episode.id) with
    | none =>
      simp only [playEpisode, hidx]
      rfl
    | some currentIndex =>
      by_cases hlen : currentIndex + 1 <
          (getEpisodesByShowId feedEpisodes episode.showId).length
      · simp only [playEpisode, hidx, if_pos hlen]
        rfl
      · simp only [playEpisode, hidx, if_neg hlen]
        rfl
  · simp only [playEpisode, hidx, if_pos hlen]
    have hmap : ∀ (l : List Episode) (t : Nat),
        (setQueue l t (setCurrentEpisode (some episode) now
            { s with isLoading := true, isPlayRequested := true })).queue.map
          QueueItem.episode = l.filter (fun ep => ep.id != episode.id) := by
      intro l t
      simp only [setQueue, setCurrentEpisode, List.map_map, Option.map_some']
      have hfc : ∀ x ∈ l,
          (!((some episode.id : Option String) == some x.id)) =
            (x.id != episode.id) := by
        intro x _
        by_cases hxe : x.id = episode.id
        · simp [hxe]
        · have h1 : ((some episode.id : Option String) == some x.id) = false := by
            simp only [beq_eq_false_iff_ne, ne_eq, Option.some.injEq]
            exact fun h => hxe h.symm
          have h2 : (x.id != episode.id) = true := by
            simp only [bne_iff_ne, ne_eq]
            exact hxe
          rw [h1, h2]
          rfl
      rw [List.filter_congr hfc]
      have hcomp : (QueueItem.episode ∘
          fun episode => ({ episode := episode, addedAt := t } : QueueItem)) = id := rfl
      rw [hcomp, List.map_id]
    exact hmap _ now
  · simp only [playEpisode, hidx]
    rw [setCurrentEpisode_queue]
  · simp only [playEpisode, hidx, if_neg hlen]
    rw [setCurrentEpisode_queue]

/-- Download-store fixture with a completed local download of ep1. -/
def dstoreWithEp1 : DownloadState :=
  addDownload ep1 "file:///downloads/e1.mp3" 2 initialDownloadState

/-- Witness for the amended C8: playing ep1 (downloaded) over the feed
[ep1, ep2, ep3] plays the local file from offset 0 and replaces the queue
with [ep2, ep3]. -/
theorem playEpisode_amended_witness :
    (getLocalPath dstoreWithEp1 ep1.id = some "file:///downloads/e1.mp3" ∧
      (playEpisode [ep1, ep2, ep3] dstoreWithEp1 ep1 true 6
          initialPlayerState).1 =
        AudioCommand.play ep1 "file:///downloads/e1.mp3"
          (if true then 0 else getSavedPosition initialPlayerState ep1.id)) ∧
    ((getEpisodesByShowId [ep1, ep2, ep3] ep1.showId).findIdx?
        (fun ep => ep.id == ep1.id) = some 0 ∧
      (playEpisode [ep1, ep2, ep3] dstoreWithEp1 ep1 true 6
          initialPlayerState).2.queue.map QueueItem.episode =
        ((getEpisodesByShowId [ep1, ep2, ep3] ep1.showId).drop 1).filter
          (fun ep => ep.id != ep1.id)) :=
  ⟨⟨by decide,
      (playEpisode_amended [ep1, ep2, ep3] dstoreWithEp1 ep1 true 6
          initialPlayerState).1 "file:///downloads/e1.mp3" (by decide)⟩,
    ⟨by decide,
      (playEpisode_amended [ep1, ep2, ep3] dstoreWithEp1 ep1 true 6
          initialPlayerState).2.2.2.1 0 (by decide) (by decide)⟩⟩

/-- Claim C10: `reset` clears exactly the playback-session fields
(current episode, the four boolean flags, position, duration) and leaves
the queue, play history, saved positions, playback speed and sleep timer
unchanged. -/
theorem reset_frame (s : PlayerState) :
    (reset s).currentEpisode = none ∧
    (reset s).isPlaying = false ∧
    (reset s).isLoading = false ∧
    (reset s).isBuffering = false ∧
    (reset s).isPlayRequested = false ∧
    (reset s).position = 0 ∧
    (reset s).duration = 0 ∧
    (reset s).queue = s.queue ∧
    (reset s).playHistory = s.playHistory ∧
    (reset s).savedPositions = s.savedPositions ∧
    (reset s).playbackSpeed = s.playbackSpeed ∧
    (reset s).sleepTimerEndTime = s.sleepTimerEndTime := by
  refine ⟨rfl, rfl, rfl, rfl, rfl, rfl, rfl, rfl, rfl, rfl, rfl, rfl⟩

end MominLectures
